import Mathlib

/-!
Verification of the pyzcap authorization-capability (ZCAP-LD style) engine.

The repository ships only the example programs under `examples/`; the core
library module `zcap.capability` (caveat evaluator, capability verifier,
delegation, invocation engine, replay guard) is exercised by those examples
but its source is not part of the tree.  The definitions below therefore
model the missing core from the specification, keeping the Python names
(`evaluate_caveat`, `verify_capability`, `delegate_capability`,
`invoke_capability`, `verify_invocation`) and the calling conventions the
example programs use.  Time is modelled as a natural number of seconds;
Ed25519 is modelled as a symbolic signature scheme satisfying the
sign/verify duality the specification demands.
-/

namespace zcap

/-- Modelled from the spec: a decentralized identifier, an opaque string used
only as a key into the DID to public-key map (missing module `zcap.models`). -/
abbrev Did := String

/-- Modelled from the spec: Ed25519 private keys, abstracted to naturals
(missing crypto layer of `zcap.capability`). -/
abbrev PrivateKey := Nat

/-- Modelled from the spec: Ed25519 public keys, abstracted to naturals. -/
abbrev PublicKey := Nat

/-- Modelled from the spec: derivation of the public key from a private key
(`private_key.public_key()` in the examples).  In the symbolic scheme the
public key is the private key itself; only the pairing matters. -/
def public_key (sk : PrivateKey) : PublicKey := sk

/-- Modelled from the spec: a Party `{id, type}` (missing module `zcap.models`). -/
structure Party where
  id : Did
  kind : String
  deriving Repr, DecidableEq

/-- Modelled from the spec: an Action `{name, parameters}`; parameter values
are modelled as strings. -/
structure Action where
  name : String
  parameters : List (String × String)
  deriving Repr, DecidableEq

/-- Modelled from the spec: a Target `{id, type}`. -/
structure Target where
  id : String
  kind : String
  deriving Repr, DecidableEq

/-- Modelled from the spec: a caveat, a tagged object `{type, ...fields}`.
The optional fields cover every recognized caveat type; an unrecognized
`type` string models an unknown caveat (missing module `zcap.models`). -/
structure Caveat where
  type : String
  date : Option Nat
  conditionId : Option String
  actions : Option (List String)
  parameter : Option String
  value : Option String
  start : Option Nat
  stop : Option Nat
  limit : Option Nat
  networks : Option (List String)
  deriving Repr, DecidableEq

/-- Modelled from the spec: failure of a single caveat evaluation
(`CaveatEvaluationError` in the missing `zcap.capability`). -/
inductive CaveatError where
  | unknownCaveat (ty : String)
  | caveatFailed (ty detail : String)
  deriving Repr, DecidableEq

/-- Association-list lookup, the model of the Python dict stores. -/
def assoc {α : Type} (kvs : List (String × α)) (k : String) : Option α :=
  match kvs with
  | [] => none
  | (k', v) :: rest => if k' = k then some v else assoc rest k

/-- Modelled from the spec: the closed set of caveat types the verifier
recognizes (section 4.3 of the specification). -/
def recognized_caveat_types : List String :=
  ["ValidUntil", "ValidAfter", "ValidWhileTrue", "AllowedAction",
   "RequireParameter", "AllowedNetwork", "MaxUses", "TimeSlot"]

/-- Minute of day used by the TimeSlot caveat. -/
def minute_of_day (now : Nat) : Nat := (now / 60) % 1440

/-- Modelled from the spec: the pure caveat evaluator of the missing
`zcap.capability` module, `evaluate_caveat(caveat, revoked_ids, action,
parameters)` with the current time made explicit.  Recognized types follow
the table in section 4.3; `AllowedNetwork` and `MaxUses` are passed through
as satisfied, which is the behaviour the repository's own tests require
(`caveat_examples.py` lines 501-511 and the note at lines 405-408); any
unrecognized type fails with `UnknownCaveat`. -/
def evaluate_caveat (caveat : Caveat) (now : Nat) (action : Option String)
    (parameters : Option (List (String × String))) (revoked_ids : List String) :
    Except CaveatError Unit :=
  if caveat.type = "ValidUntil" then
    match caveat.date with
    | some d => if now ≤ d then .ok () else .error (.caveatFailed "ValidUntil" "expired")
    | none => .error (.caveatFailed "ValidUntil" "missing date")
  else if caveat.type = "ValidAfter" then
    match caveat.date with
    | some d => if d ≤ now then .ok () else .error (.caveatFailed "ValidAfter" "not yet valid")
    | none => .error (.caveatFailed "ValidAfter" "missing date")
  else if caveat.type = "ValidWhileTrue" then
    match caveat.conditionId with
    | some cid =>
      if cid ∈ revoked_ids then .error (.caveatFailed "ValidWhileTrue" "condition revoked")
      else .ok ()
    | none => .error (.caveatFailed "ValidWhileTrue" "missing conditionId")
  else if caveat.type = "AllowedAction" then
    match caveat.actions with
    | some allowed =>
      match action with
      | none => .ok ()
      | some a =>
        if a ∈ allowed then .ok ()
        else .error (.caveatFailed "AllowedAction" "action not allowed")
    | none => .error (.caveatFailed "AllowedAction" "missing actions")
  else if caveat.type = "RequireParameter" then
    match caveat.parameter, caveat.value with
    | some p, some v =>
      match parameters with
      | none => .error (.caveatFailed "RequireParameter" "no parameter context")
      | some ps =>
        match assoc ps p with
        | some w =>
          if w = v then .ok ()
          else .error (.caveatFailed "RequireParameter" "wrong value")
        | none => .error (.caveatFailed "RequireParameter" "missing parameter")
    | _, _ => .error (.caveatFailed "RequireParameter" "malformed caveat")
  else if caveat.type = "AllowedNetwork" then .ok ()
  else if caveat.type = "MaxUses" then .ok ()
  else if caveat.type = "TimeSlot" then
    match caveat.start, caveat.stop with
    | some s, some e =>
      if s ≤ minute_of_day now ∧ minute_of_day now ≤ e then .ok ()
      else .error (.caveatFailed "TimeSlot" "outside window")
    | _, _ => .error (.caveatFailed "TimeSlot" "malformed caveat")
  else .error (.unknownCaveat caveat.type)

/-- Modelled from the spec: evaluate a list of caveats in declared order,
reporting the first failure (section 4.5, ordering rule). -/
def evaluate_caveats (cs : List Caveat) (now : Nat) (action : Option String)
    (parameters : Option (List (String × String))) (revoked_ids : List String) :
    Except CaveatError Unit :=
  match cs with
  | [] => .ok ()
  | c :: rest =>
    match evaluate_caveat c now action parameters revoked_ids with
    | .ok _ => evaluate_caveats rest now action parameters revoked_ids
    | .error e => .error e

/-- Modelled from the spec: the unsigned body of a capability, exactly the
canonical signing input (the JSON-LD document with the `proof` member
removed, section 4.1); missing module `zcap.models`. -/
structure CapabilityData where
  id : String
  controller : Party
  invoker : Party
  actions : List Action
  target : Target
  parent_capability : Option String
  caveats : List Caveat
  expires : Option Nat
  created : Nat
  deriving Repr, DecidableEq

/-- Modelled from the spec: a symbolic Ed25519 signature over the canonical
bytes of a capability; it records the signer's public key and the signed
message, so that verification holds exactly for the key pair that produced
it (sign/verify duality, section 8). -/
structure CapSignature where
  signer : PublicKey
  message : CapabilityData
  deriving Repr, DecidableEq

/-- Modelled from the spec: `sign(privateKey, bytes)` for capabilities. -/
def sign_capability (sk : PrivateKey) (m : CapabilityData) : CapSignature :=
  ⟨public_key sk, m⟩

/-- Modelled from the spec: `verify(publicKey, bytes, signature)` for
capabilities; true iff the signature was produced over exactly this message
by the private key matching `pk`. -/
def check_capability_signature (pk : PublicKey) (m : CapabilityData) (s : CapSignature) : Bool :=
  if s.signer = pk ∧ s.message = m then true else false

/-- Modelled from the spec: the proof block attached to a capability. -/
structure CapProof where
  verification_method : Did
  proof_purpose : String
  proof_value : CapSignature
  deriving Repr, DecidableEq

/-- Modelled from the spec: a signed capability (missing module `zcap.models`). -/
structure Capability where
  data : CapabilityData
  proof : CapProof
  deriving Repr, DecidableEq

/-- Modelled from the spec: the unsigned body of an invocation document. -/
structure InvocationData where
  id : String
  action : String
  capability : String
  parameters : List (String × String)
  created : Nat
  nonce : String
  deriving Repr, DecidableEq

/-- Modelled from the spec: a symbolic Ed25519 signature over the canonical
bytes of an invocation. -/
structure InvSignature where
  signer : PublicKey
  message : InvocationData
  deriving Repr, DecidableEq

/-- Modelled from the spec: `sign(privateKey, bytes)` for invocations. -/
def sign_invocation (sk : PrivateKey) (m : InvocationData) : InvSignature :=
  ⟨public_key sk, m⟩

/-- Modelled from the spec: `verify(publicKey, bytes, signature)` for
invocations. -/
def check_invocation_signature (pk : PublicKey) (m : InvocationData) (s : InvSignature) : Bool :=
  if s.signer = pk ∧ s.message = m then true else false

/-- Modelled from the spec: the proof block attached to an invocation. -/
structure InvProof where
  verification_method : Did
  proof_purpose : String
  proof_value : InvSignature
  deriving Repr, DecidableEq

/-- Modelled from the spec: a signed invocation document. -/
structure Invocation where
  data : InvocationData
  proof : InvProof
  deriving Repr, DecidableEq

/-- Modelled from the spec: the four caller-supplied state stores plus the
nonce timestamp map, exactly the dictionaries the example programs pass to
every operation (`did_key_store`, `capability_store`,
`revoked_capabilities`, `used_invocation_nonces`, `nonce_timestamps`). -/
structure Stores where
  did_key_store : List (Did × PublicKey)
  capability_store : List (String × Capability)
  revoked_capabilities : List String
  used_invocation_nonces : List String
  nonce_timestamps : List (String × Nat)
  deriving Repr, DecidableEq

/-- Modelled from the spec: the typed failure kinds of section 7
(the exception taxonomy of the missing `zcap.capability`). -/
inductive ZcapError where
  | revoked
  | expired
  | parentNotFound
  | controllerNotParentInvoker
  | actionNotPermitted
  | expiryExceedsParent
  | createdBeforeParent
  | targetMismatch
  | caveatFailed (e : CaveatError)
  | unknownDID
  | signatureInvalid
  | actionNotAllowed
  | invocationRejected (e : CaveatError)
  | invokerMismatch
  | delegationNotPermitted
  | capabilityNotFound
  | staleInvocation
  | replayedNonce
  | chainTooDeep
  deriving Repr, DecidableEq

/-- Boolean success test on a fallible result. -/
def is_ok {ε α : Type} : Except ε α → Bool
  | .ok _ => true
  | .error _ => false

/-- Modelled from the spec: the expiry check of verification step 2,
`now > cap.expires` rejects. -/
def expiry_ok (expires : Option Nat) (now : Nat) : Bool :=
  match expires with
  | none => true
  | some e => now ≤ e

/-- The names of a capability's actions, in order. -/
def action_names (as : List Action) : List String := as.map Action.name

/-- Modelled from the spec: action attenuation, every child action name
must appear among the parent's action names (invariant 4). -/
def actions_subset (child parent : List Action) : Bool :=
  (action_names child).all (fun n => n ∈ action_names parent)

/-- Modelled from the spec: temporal attenuation, `child.expires ≤
parent.expires` when both are set (invariant 5). -/
def expiry_within (child parent : Option Nat) : Bool :=
  match child, parent with
  | some c, some p => c ≤ p
  | _, _ => true

/-- Modelled from the spec: the attenuation checks of verification step 3,
enforcing invariants 3, 4, 5 and 6 against the resolved parent. -/
def attenuation_checks (cap parent : Capability) : Except ZcapError Unit :=
  if cap.data.controller.id ≠ parent.data.invoker.id then .error .controllerNotParentInvoker
  else if ¬ actions_subset cap.data.actions parent.data.actions then .error .actionNotPermitted
  else if ¬ expiry_within cap.data.expires parent.data.expires then .error .expiryExceedsParent
  else if cap.data.created < parent.data.created then .error .createdBeforeParent
  else if cap.data.target.id ≠ parent.data.target.id then .error .targetMismatch
  else .ok ()

/-- Modelled from the spec: `verify_capability(cap, stores)` of the missing
`zcap.capability` (section 4.5), with an explicit recursion bound on the
parent chain (the Python recursion is bounded by the call stack; the bound
is set from the store size so every chain resolvable in the store is
covered).  Steps in order: revocation, expiry, parent chain with
attenuation checks, caveats, DID resolution, signature. -/
def verify_capability_fuel : Nat → Capability → Stores → Nat → Except ZcapError Unit
  | 0, _, _, _ => .error .chainTooDeep
  | fuel + 1, cap, stores, now =>
    if cap.data.id ∈ stores.revoked_capabilities then .error .revoked
    else if ¬ expiry_ok cap.data.expires now then .error .expired
    else
      match (match cap.data.parent_capability with
             | none => Except.ok ()
             | some pid =>
               match assoc stores.capability_store pid with
               | none => Except.error ZcapError.parentNotFound
               | some parent =>
                 match verify_capability_fuel fuel parent stores now with
                 | .error e => .error e
                 | .ok _ => attenuation_checks cap parent) with
      | .error e => .error e
      | .ok _ =>
        match evaluate_caveats cap.data.caveats now none none stores.revoked_capabilities with
        | .error e => .error (.caveatFailed e)
        | .ok _ =>
          match assoc stores.did_key_store cap.data.controller.id with
          | none => .error .unknownDID
          | some pk =>
            if check_capability_signature pk cap.data cap.proof.proof_value then .ok ()
            else .error .signatureInvalid

/-- Modelled from the spec: `verify_capability` at its standard recursion
bound, one more than the number of stored capabilities. -/
def verify_capability (cap : Capability) (stores : Stores) (now : Nat) :
    Except ZcapError Unit :=
  verify_capability_fuel (stores.capability_store.length + 1) cap stores now

/-- Whether the capability's own id, or the id of an ancestor reachable
through `parentCapability` in the capability store, is in the revocation
set (bounded by the same fuel as the verifier). -/
def revoked_in_chain_fuel : Nat → Capability → Stores → Bool
  | 0, _, _ => false
  | fuel + 1, cap, stores =>
    cap.data.id ∈ stores.revoked_capabilities ||
      (match cap.data.parent_capability with
       | none => false
       | some pid =>
         match assoc stores.capability_store pid with
         | none => false
         | some parent => revoked_in_chain_fuel fuel parent stores)

/-- `revoked_in_chain_fuel` at the verifier's standard recursion bound. -/
def revoked_in_chain (cap : Capability) (stores : Stores) : Bool :=
  revoked_in_chain_fuel (stores.capability_store.length + 1) cap stores

/-- Modelled from the spec: delegation step 3, the requested actions are
admissible (absent, or each name appears among the parent's action names). -/
def requested_actions_ok (actions : Option (List Action)) (parent : Capability) : Bool :=
  match actions with
  | none => true
  | some as => actions_subset as parent.data.actions

/-- Modelled from the spec: delegation step 3, the child's actions (the
requested ones, or the parent's when absent). -/
def inherited_actions (actions : Option (List Action)) (parent : Capability) : List Action :=
  match actions with
  | none => parent.data.actions
  | some as => as

/-- Modelled from the spec: delegation step 4, the requested expiry is
admissible (`expires ≤ parent.expires` when both are set). -/
def requested_expires_ok (expires : Option Nat) (parent : Capability) : Bool :=
  match expires, parent.data.expires with
  | some e, some pe => e ≤ pe
  | _, _ => true

/-- Modelled from the spec: delegation step 4, the child's expiry (the
requested one, or the parent's when absent). -/
def inherited_expires (expires : Option Nat) (parent : Capability) : Option Nat :=
  match expires with
  | none => parent.data.expires
  | some e => some e

/-- Modelled from the spec: `delegate_capability(parent, delegator_key,
new_invoker_did, actions, expires, caveats, stores)` of the missing
`zcap.capability` (section 4.4).  The fresh `urn:uuid` and the current time
are explicit arguments.  The function returns the signed child and never
touches the stores; the example programs insert the child themselves. -/
def delegate_capability (parent : Capability) (delegator_key : PrivateKey)
    (new_invoker_did : Did) (actions : Option (List Action))
    (expires : Option Nat) (caveats : List Caveat)
    (stores : Stores) (now : Nat) (fresh_id : String) :
    Except ZcapError Capability :=
  match assoc stores.capability_store parent.data.id with
  | none => .error .capabilityNotFound
  | some _ =>
    match verify_capability parent stores now with
    | .error e => .error e
    | .ok _ =>
      match assoc stores.did_key_store parent.data.invoker.id with
      | none => .error .unknownDID
      | some pk =>
        if public_key delegator_key ≠ pk then .error .delegationNotPermitted
        else if ¬ requested_actions_ok actions parent then .error .actionNotPermitted
        else if ¬ requested_expires_ok expires parent then .error .expiryExceedsParent
        else
          let cdata : CapabilityData :=
            ⟨fresh_id, ⟨parent.data.invoker.id, "Controller"⟩, ⟨new_invoker_did, "Invoker"⟩,
             inherited_actions actions parent, parent.data.target, some parent.data.id,
             caveats, inherited_expires expires parent, now⟩
          .ok ⟨cdata, ⟨parent.data.invoker.id, "capabilityDelegation",
                       sign_capability delegator_key cdata⟩⟩

/-- Modelled from the spec: the effective caveats of a capability, its own
caveats followed by those of its ancestors resolved through the capability
store (invariant 7), bounded like the verifier. -/
def effective_caveats_fuel : Nat → Capability → Stores → List Caveat
  | 0, _, _ => []
  | fuel + 1, cap, stores =>
    cap.data.caveats ++
      (match cap.data.parent_capability with
       | none => []
       | some pid =>
         match assoc stores.capability_store pid with
         | none => []
         | some parent => effective_caveats_fuel fuel parent stores)

/-- `effective_caveats_fuel` at the verifier's standard recursion bound. -/
def effective_caveats (cap : Capability) (stores : Stores) : List Caveat :=
  effective_caveats_fuel (stores.capability_store.length + 1) cap stores

/-- Modelled from the spec: `invoke_capability(capability, action_name,
invoker_key, stores, parameters)` of the missing `zcap.capability`
(section 4.6).  The fresh `urn:uuid`, the fresh random nonce and the
current time are explicit arguments.  The result pairs the outcome with
the stores after the call: a successful invocation records its nonce and
timestamp in the replay-guard stores (the example programs hand
`used_invocation_nonces` and `nonce_timestamps` to every call, and the
section 4.7 note attributes the nonce-set mutations to the invocation
engine); a failed call leaves the stores untouched. -/
def invoke_capability (cap : Capability) (action_name : String)
    (invoker_key : PrivateKey) (stores : Stores)
    (parameters : List (String × String)) (now : Nat)
    (fresh_id fresh_nonce : String) :
    Except ZcapError Invocation × Stores :=
  match verify_capability cap stores now with
  | .error e => (.error e, stores)
  | .ok _ =>
    if action_name ∈ action_names cap.data.actions then
      match evaluate_caveats (effective_caveats cap stores) now (some action_name)
              (some parameters) stores.revoked_capabilities with
      | .error e => (.error (.invocationRejected e), stores)
      | .ok _ =>
        match assoc stores.did_key_store cap.data.invoker.id with
        | none => (.error .unknownDID, stores)
        | some pk =>
          if public_key invoker_key = pk then
            let idata : InvocationData :=
              ⟨fresh_id, action_name, cap.data.id, parameters, now, fresh_nonce⟩
            (.ok ⟨idata, ⟨cap.data.invoker.id, "capabilityInvocation",
                          sign_invocation invoker_key idata⟩⟩,
             ⟨stores.did_key_store, stores.capability_store, stores.revoked_capabilities,
              fresh_nonce :: stores.used_invocation_nonces,
              (fresh_nonce, now) :: stores.nonce_timestamps⟩)
          else (.error .invokerMismatch, stores)
    else (.error .actionNotAllowed, stores)

/-- Modelled from the spec: the replay-guard freshness window, five
minutes (section 4.6 step 3 of `verifyInvocation`). -/
def nonce_ttl : Nat := 300

/-- Modelled from the spec: the freshness check, the distance between `now`
and the invocation's `created` is at most the window. -/
def within_ttl (created now : Nat) : Bool :=
  now - created ≤ nonce_ttl && created - now ≤ nonce_ttl

/-- Modelled from the spec: step 4 of `verifyInvocation`, record the nonce
with the invocation's timestamp. -/
def add_nonce (s : Stores) (nonce : String) (created : Nat) : Stores :=
  ⟨s.did_key_store, s.capability_store, s.revoked_capabilities,
   nonce :: s.used_invocation_nonces, (nonce, created) :: s.nonce_timestamps⟩

/-- Modelled from the spec: nonce maintenance, evict entries whose
timestamp is older than the window (section 4.6). -/
def evict_old (s : Stores) (now : Nat) : Stores :=
  ⟨s.did_key_store, s.capability_store, s.revoked_capabilities,
   s.used_invocation_nonces.filter (fun n =>
     match assoc s.nonce_timestamps n with
     | some t => now - nonce_ttl ≤ t
     | none => false),
   s.nonce_timestamps.filter (fun p => now - nonce_ttl ≤ p.2)⟩

/-- Modelled from the spec: `verify_invocation(invocation_doc, stores)` of
the missing `zcap.capability` (section 4.6).  Steps in order: capability
lookup and verification, action and effective caveats, freshness, replay
guard, invoker key resolution and signature; nonce eviction runs after
every successful verification.  The result pairs the outcome with the
stores after the call. -/
def verify_invocation (inv : Invocation) (stores : Stores) (now : Nat) :
    Except ZcapError Unit × Stores :=
  match assoc stores.capability_store inv.data.capability with
  | none => (.error .capabilityNotFound, stores)
  | some cap =>
    match verify_capability cap stores now with
    | .error e => (.error e, stores)
    | .ok _ =>
      if inv.data.action ∈ action_names cap.data.actions then
        match evaluate_caveats (effective_caveats cap stores) now (some inv.data.action)
                (some inv.data.parameters) stores.revoked_capabilities with
        | .error e => (.error (.invocationRejected e), stores)
        | .ok _ =>
          if within_ttl inv.data.created now then
            if inv.data.nonce ∈ stores.used_invocation_nonces then
              (.error .replayedNonce, stores)
            else
              let stores1 := add_nonce stores inv.data.nonce inv.data.created
              match assoc stores.did_key_store cap.data.invoker.id with
              | none => (.error .unknownDID, stores1)
              | some pk =>
                if check_invocation_signature pk inv.data inv.proof.proof_value then
                  (.ok (), evict_old stores1 now)
                else (.error .signatureInvalid, stores1)
          else (.error .staleInvocation, stores)
      else (.error .actionNotAllowed, stores)

/-- A caveat with only its `type` set, as issued for opaque or unknown
caveat objects in the examples. -/
def bare_caveat (ty : String) : Caveat :=
  ⟨ty, none, none, none, none, none, none, none, none, none⟩

/-- Concrete scenario: Alice's private key. -/
def alice_sk : PrivateKey := 1

/-- Concrete scenario: Bob's private key. -/
def bob_sk : PrivateKey := 2

/-- Concrete scenario: Charlie's private key. -/
def charlie_sk : PrivateKey := 3

/-- Concrete scenario: the document target of the sharing example. -/
def doc_target : Target := ⟨"https://example.com/documents/123", "Document"⟩

/-- Concrete scenario: the DID key store of the examples. -/
def example_dks : List (Did × PublicKey) :=
  [("did:example:alice", public_key alice_sk),
   ("did:example:bob", public_key bob_sk),
   ("did:example:charlie", public_key charlie_sk)]

/-- Concrete scenario: body of the root capability Alice issues for Bob
with actions read and write. -/
def root_cap_data : CapabilityData :=
  ⟨"urn:uuid:root", ⟨"did:example:alice", "Controller"⟩, ⟨"did:example:bob", "Invoker"⟩,
   [⟨"read", []⟩, ⟨"write", []⟩], doc_target, none, [], some 10000, 100⟩

/-- Concrete scenario: the signed root capability. -/
def root_cap : Capability :=
  ⟨root_cap_data, ⟨"did:example:alice", "capabilityDelegation",
    sign_capability alice_sk root_cap_data⟩⟩

/-- Concrete scenario: body of the read-only child capability Bob delegates
to Charlie. -/
def child_cap_data : CapabilityData :=
  ⟨"urn:uuid:child", ⟨"did:example:bob", "Controller"⟩, ⟨"did:example:charlie", "Invoker"⟩,
   [⟨"read", []⟩], doc_target, some "urn:uuid:root", [], some 5000, 150⟩

/-- Concrete scenario: the signed child capability. -/
def child_cap : Capability :=
  ⟨child_cap_data, ⟨"did:example:bob", "capabilityDelegation",
    sign_capability bob_sk child_cap_data⟩⟩

/-- Concrete scenario: stores holding the root and child capabilities with
nothing revoked and no nonce recorded. -/
def chain_stores : Stores :=
  ⟨example_dks,
   [("urn:uuid:root", root_cap), ("urn:uuid:child", child_cap)], [], [], []⟩

/-- Concrete scenario: a capability carrying the unknown caveat type
`FooBar`, as in end-to-end scenario 6 of the specification. -/
def foo_cap_data : CapabilityData :=
  ⟨"urn:uuid:foo", ⟨"did:example:alice", "Controller"⟩, ⟨"did:example:bob", "Invoker"⟩,
   [⟨"read", []⟩], doc_target, none, [bare_caveat "FooBar"], some 10000, 100⟩

/-- Concrete scenario: the signed `FooBar` capability. -/
def foo_cap : Capability :=
  ⟨foo_cap_data, ⟨"did:example:alice", "capabilityDelegation",
    sign_capability alice_sk foo_cap_data⟩⟩

/-- Concrete scenario: stores holding the `FooBar` capability. -/
def foo_stores : Stores :=
  ⟨example_dks, [("urn:uuid:foo", foo_cap)], [], [], []⟩

/-- Concrete scenario: a `MaxUses` caveat with limit 10, exactly the caveat
the repository's tests pass to `evaluate_caveat`. -/
def max_uses_caveat : Caveat :=
  ⟨"MaxUses", none, none, none, none, none, none, none, some 10, none⟩

/-- Concrete scenario: a capability whose only caveat is the `MaxUses`
caveat, with no declaration of external enforcement anywhere. -/
def max_uses_cap_data : CapabilityData :=
  ⟨"urn:uuid:mu", ⟨"did:example:alice", "Controller"⟩, ⟨"did:example:bob", "Invoker"⟩,
   [⟨"use", []⟩], doc_target, none, [max_uses_caveat], some 10000, 100⟩

/-- Concrete scenario: the signed `MaxUses` capability. -/
def max_uses_cap : Capability :=
  ⟨max_uses_cap_data, ⟨"did:example:alice", "capabilityDelegation",
    sign_capability alice_sk max_uses_cap_data⟩⟩

/-- Concrete scenario: stores holding the `MaxUses` capability. -/
def max_uses_stores : Stores :=
  ⟨example_dks, [("urn:uuid:mu", max_uses_cap)], [], [], []⟩

/-- Concrete scenario: `chain_stores` after the root capability's id has
been added to the revocation set. -/
def revoked_stores : Stores :=
  ⟨example_dks,
   [("urn:uuid:root", root_cap), ("urn:uuid:child", child_cap)],
   ["urn:uuid:root"], [], []⟩

/-- Concrete scenario: body of an invocation of the root capability by Bob. -/
def inv1_data : InvocationData :=
  ⟨"urn:uuid:inv1", "read", "urn:uuid:root", [], 200, "nonce-1"⟩

/-- Concrete scenario: the signed first invocation. -/
def inv1 : Invocation :=
  ⟨inv1_data, ⟨"did:example:bob", "capabilityInvocation",
    sign_invocation bob_sk inv1_data⟩⟩

/-- Concrete scenario: body of a second invocation with a fresh nonce. -/
def inv2_data : InvocationData :=
  ⟨"urn:uuid:inv2", "read", "urn:uuid:root", [], 210, "nonce-2"⟩

/-- Concrete scenario: the signed second invocation. -/
def inv2 : Invocation :=
  ⟨inv2_data, ⟨"did:example:bob", "capabilityInvocation",
    sign_invocation bob_sk inv2_data⟩⟩

/-- Concrete scenario: stores in which the first invocation's nonce is
already recorded. -/
def replayed_stores : Stores :=
  ⟨example_dks,
   [("urn:uuid:root", root_cap), ("urn:uuid:child", child_cap)],
   [], ["nonce-1"], [("nonce-1", 150)]⟩

/-- Equality of fallible results is decidable when both components are. -/
instance {ε α : Type} [DecidableEq ε] [DecidableEq α] : DecidableEq (Except ε α) := fun x y =>
  match x, y with
  | .ok a, .ok b =>
    if h : a = b then .isTrue (h ▸ rfl) else .isFalse (fun hc => h (Except.ok.inj hc))
  | .error e, .error f =>
    if h : e = f then .isTrue (h ▸ rfl) else .isFalse (fun hc => h (Except.error.inj hc))
  | .ok _, .error _ => .isFalse (fun hc => Except.noConfusion hc)
  | .error _, .ok _ => .isFalse (fun hc => Except.noConfusion hc)

/-- Evaluating a caveat whose type is outside the recognized set fails with
`UnknownCaveat`, whatever the context. -/
lemma evaluate_caveat_unknown (c : Caveat) (now : Nat) (act : Option String)
    (ps : Option (List (String × String))) (rev : List String)
    (h : c.type ∉ recognized_caveat_types) :
    evaluate_caveat c now act ps rev = .error (.unknownCaveat c.type) := by
  simp only [recognized_caveat_types, List.mem_cons, List.not_mem_nil, or_false, not_or] at h
  obtain ⟨h1, h2, h3, h4, h5, h6, h7, h8⟩ := h
  simp [evaluate_caveat, h1, h2, h3, h4, h5, h6, h7, h8]

/-- A caveat list evaluates successfully exactly when each member does. -/
lemma evaluate_caveats_ok_iff (cs : List Caveat) (now : Nat) (act : Option String)
    (ps : Option (List (String × String))) (rev : List String) :
    evaluate_caveats cs now act ps rev = .ok () ↔
      ∀ c ∈ cs, evaluate_caveat c now act ps rev = .ok () := by
  induction cs with
  | nil => simp [evaluate_caveats]
  | cons c rest ih =>
    cases he : evaluate_caveat c now act ps rev with
    | ok u =>
      cases u
      simp [evaluate_caveats, he, ih]
    | error e =>
      simp only [evaluate_caveats, he]
      constructor
      · intro h; exact absurd h (by simp)
      · intro h
        have hc := h c (List.mem_cons_self c rest)
        rw [he] at hc
        exact absurd hc (by simp)

/-- A result is successful exactly when it is `ok` of some value. -/
lemma is_ok_iff_exists {ε α : Type} (r : Except ε α) :
    is_ok r = true ↔ ∃ a, r = .ok a := by
  cases r with
  | ok a => simp [is_ok]
  | error e => simp [is_ok]

/-- Inversion of a successful `verify_capability_fuel`: the capability is
not revoked, its own caveats all pass, and any parent resolves in the store
and verifies at the smaller bound. -/
lemma verify_fuel_ok_inv (fuel : Nat) (cap : Capability) (s : Stores) (now : Nat)
    (h : verify_capability_fuel (fuel + 1) cap s now = .ok ()) :
    cap.data.id ∉ s.revoked_capabilities ∧
    evaluate_caveats cap.data.caveats now none none s.revoked_capabilities = .ok () ∧
    ∀ pid, cap.data.parent_capability = some pid →
      ∃ parent, assoc s.capability_store pid = some parent ∧
        verify_capability_fuel fuel parent s now = .ok () := by
  by_cases hrev : cap.data.id ∈ s.revoked_capabilities
  · simp [verify_capability_fuel, hrev] at h
  by_cases hexp : expiry_ok cap.data.expires now = true
  case neg => simp [verify_capability_fuel, hrev, hexp] at h
  refine ⟨hrev, ?_, ?_⟩
  · cases hc : evaluate_caveats cap.data.caveats now none none s.revoked_capabilities with
    | ok u => cases u; rfl
    | error e =>
      cases hp : cap.data.parent_capability with
      | none => simp [verify_capability_fuel, hrev, hexp, hp, hc] at h
      | some pid =>
        cases ha : assoc s.capability_store pid with
        | none => simp [verify_capability_fuel, hrev, hexp, hp, ha] at h
        | some parent =>
          cases hv : verify_capability_fuel fuel parent s now with
          | error e2 => simp [verify_capability_fuel, hrev, hexp, hp, ha, hv] at h
          | ok u =>
            cases u
            cases hat : attenuation_checks cap parent with
            | error e3 => simp [verify_capability_fuel, hrev, hexp, hp, ha, hv, hat] at h
            | ok u2 =>
              cases u2
              simp [verify_capability_fuel, hrev, hexp, hp, ha, hv, hat, hc] at h
  · intro pid hpid
    cases ha : assoc s.capability_store pid with
    | none => simp [verify_capability_fuel, hrev, hexp, hpid, ha] at h
    | some parent =>
      cases hv : verify_capability_fuel fuel parent s now with
      | error e2 => simp [verify_capability_fuel, hrev, hexp, hpid, ha, hv] at h
      | ok u => cases u; exact ⟨parent, rfl, hv⟩

/-- A capability whose chain contains a revoked id never verifies. -/
lemma revoked_chain_fuel_not_ok (s : Stores) (now : Nat) :
    ∀ fuel cap, revoked_in_chain_fuel fuel cap s = true →
      verify_capability_fuel fuel cap s now ≠ .ok () := by
  intro fuel
  induction fuel with
  | zero => intro cap h; simp [revoked_in_chain_fuel] at h
  | succ f ih =>
    intro cap h hok
    obtain ⟨hrev, _, hpar⟩ := verify_fuel_ok_inv f cap s now hok
    simp only [revoked_in_chain_fuel, Bool.or_eq_true, decide_eq_true_eq] at h
    rcases h with h | h
    · exact hrev h
    · cases hp : cap.data.parent_capability with
      | none => simp only [hp] at h; exact absurd h (by simp)
      | some pid =>
        simp only [hp] at h
        obtain ⟨parent, ha, hv⟩ := hpar pid hp
        simp only [ha] at h
        exact ih parent h hv

/-- Inversion of a successful `delegate_capability`: the requested actions
and expiry were admissible and the child carries the inherited values. -/
lemma delegate_ok_inv (parent : Capability) (k : PrivateKey) (ndid : Did)
    (acts : Option (List Action)) (exp : Option Nat) (cavs : List Caveat)
    (s : Stores) (now : Nat) (fid : String) (child : Capability)
    (h : delegate_capability parent k ndid acts exp cavs s now fid = .ok child) :
    requested_actions_ok acts parent = true ∧
    requested_expires_ok exp parent = true ∧
    child.data.actions = inherited_actions acts parent ∧
    child.data.expires = inherited_expires exp parent := by
  cases h1 : assoc s.capability_store parent.data.id with
  | none => simp [delegate_capability, h1] at h
  | some c0 =>
    cases h2 : verify_capability parent s now with
    | error e => simp [delegate_capability, h1, h2] at h
    | ok u =>
      cases u
      cases h3 : assoc s.did_key_store parent.data.invoker.id with
      | none => simp [delegate_capability, h1, h2, h3] at h
      | some pk =>
        by_cases h4 : public_key k = pk
        case neg => simp [delegate_capability, h1, h2, h3, h4] at h
        case pos =>
          by_cases h5 : requested_actions_ok acts parent = true
          case neg => simp [delegate_capability, h1, h2, h3, h4, h5] at h
          case pos =>
            by_cases h6 : requested_expires_ok exp parent = true
            case neg => simp [delegate_capability, h1, h2, h3, h4, h5, h6] at h
            case pos =>
              simp only [delegate_capability, h1, h2, h3] at h
              rw [if_neg (by simp [h4]), if_neg (by simp [h5]), if_neg (by simp [h6]),
                Except.ok.injEq] at h
              exact ⟨h5, h6, by rw [← h], by rw [← h]⟩

/-- Freshness implies the invocation's timestamp survives its own
eviction cutoff. -/
lemma within_ttl_cutoff (c now : Nat) (h : within_ttl c now = true) :
    now - nonce_ttl ≤ c := by
  simp only [within_ttl, Bool.and_eq_true, decide_eq_true_eq] at h
  omega

set_option maxRecDepth 4000 in
/-- Recording a nonce and then evicting keeps the nonce and its timestamp
when the timestamp is within the window. -/
lemma nonce_recorded (s : Stores) (n : String) (c now : Nat)
    (hc : now - nonce_ttl ≤ c) :
    n ∈ (evict_old (add_nonce s n c) now).used_invocation_nonces ∧
    assoc (evict_old (add_nonce s n c) now).nonce_timestamps n = some c := by
  constructor
  · simp only [evict_old, add_nonce, List.filter_cons]
    simp [assoc, hc]
  · simp only [evict_old, add_nonce, List.filter_cons]
    simp [assoc, hc]

/-- Inversion of a successful `verify_invocation`: the nonce was fresh to
the store, the invocation was within the freshness window, and the
resulting stores are the eviction of the store extended with the nonce. -/
lemma verify_invocation_ok_inv (inv : Invocation) (s : Stores) (now : Nat)
    (h : (verify_invocation inv s now).1 = .ok ()) :
    inv.data.nonce ∉ s.used_invocation_nonces ∧
    within_ttl inv.data.created now = true ∧
    (verify_invocation inv s now).2 =
      evict_old (add_nonce s inv.data.nonce inv.data.created) now := by
  cases hcap : assoc s.capability_store inv.data.capability with
  | none => simp [verify_invocation, hcap] at h
  | some cap =>
    cases hv : verify_capability cap s now with
    | error e => simp [verify_invocation, hcap, hv] at h
    | ok u =>
      cases u
      by_cases hact : inv.data.action ∈ action_names cap.data.actions
      case neg => simp [verify_invocation, hcap, hv, hact] at h
      case pos =>
        cases hcavs : evaluate_caveats (effective_caveats cap s) now (some inv.data.action)
            (some inv.data.parameters) s.revoked_capabilities with
        | error e => simp [verify_invocation, hcap, hv, hact, hcavs] at h
        | ok u2 =>
          cases u2
          by_cases hfresh : within_ttl inv.data.created now = true
          case neg => simp [verify_invocation, hcap, hv, hact, hcavs, hfresh] at h
          case pos =>
            by_cases hnon : inv.data.nonce ∈ s.used_invocation_nonces
            case pos => simp [verify_invocation, hcap, hv, hact, hcavs, hfresh, hnon] at h
            case neg =>
              cases hd : assoc s.did_key_store cap.data.invoker.id with
              | none =>
                simp [verify_invocation, hcap, hv, hact, hcavs, hfresh, hnon, hd] at h
              | some pk =>
                by_cases hsig : check_invocation_signature pk inv.data
                    inv.proof.proof_value = true
                case neg =>
                  simp [verify_invocation, hcap, hv, hact, hcavs, hfresh, hnon, hd, hsig] at h
                case pos =>
                  refine ⟨hnon, hfresh, ?_⟩
                  simp [verify_invocation, hcap, hv, hact, hcavs, hfresh, hnon, hd, hsig]

/-- Claim C1: for every capability carrying a caveat whose type is outside
the recognized set, `evaluate_caveat` fails with `UnknownCaveat` in every
context, `verify_capability` never succeeds, and when the revocation,
expiry and parent stages pass and the unknown caveat is the capability's
sole caveat, verification fails with exactly the `UnknownCaveat` reason. -/
theorem claim_C1 (cap : Capability) (c : Caveat) (s : Stores) (now : Nat)
    (hmem : c ∈ cap.data.caveats) (hunk : c.type ∉ recognized_caveat_types) :
    (∀ act ps rev, evaluate_caveat c now act ps rev = .error (.unknownCaveat c.type)) ∧
    verify_capability cap s now ≠ .ok () ∧
    (cap.data.id ∉ s.revoked_capabilities → expiry_ok cap.data.expires now = true →
      cap.data.parent_capability = none → cap.data.caveats = [c] →
      verify_capability cap s now = .error (.caveatFailed (.unknownCaveat c.type))) := by
  refine ⟨fun act ps rev => evaluate_caveat_unknown c now act ps rev hunk, ?_, ?_⟩
  · intro hok
    obtain ⟨_, hcav, _⟩ := verify_fuel_ok_inv _ cap s now hok
    have hc := (evaluate_caveats_ok_iff cap.data.caveats now none none
      s.revoked_capabilities).mp hcav c hmem
    rw [evaluate_caveat_unknown c now none none s.revoked_capabilities hunk] at hc
    exact absurd hc (by simp)
  · intro hrev hexp hpar hcavs
    have hev := evaluate_caveat_unknown c now none none s.revoked_capabilities hunk
    simp [verify_capability, verify_capability_fuel, hrev, hexp, hpar, hcavs,
      evaluate_caveats, hev]

/-- Witness for claim C1: the scenario-6 capability with a `FooBar` caveat
fails verification with exactly the `UnknownCaveat` reason. -/
theorem claim_C1_witness :
    (bare_caveat "FooBar" ∈ foo_cap.data.caveats ∧
      (bare_caveat "FooBar").type ∉ recognized_caveat_types) ∧
    verify_capability foo_cap foo_stores 200 =
      .error (.caveatFailed (.unknownCaveat "FooBar")) :=
  ⟨⟨by decide, by decide⟩,
   (claim_C1 foo_cap (bare_caveat "FooBar") foo_stores 200 (by decide) (by decide)).2.2
     (by decide) (by decide) rfl rfl⟩

/-- Claim C2 (amended): `evaluate_caveat` treats every `AllowedNetwork` and
`MaxUses` caveat as unconditionally satisfied (a pass-through deferred to
the caller); there is no externally-enforced enrollment mechanism and the
caller's declaration plays no role. -/
theorem claim_C2_theorem (c : Caveat) (now : Nat) (act : Option String)
    (ps : Option (List (String × String))) (rev : List String)
    (h : c.type = "AllowedNetwork" ∨ c.type = "MaxUses") :
    evaluate_caveat c now act ps rev = .ok () := by
  rcases h with h | h <;> simp [evaluate_caveat, h]

/-- Witness for claim C2 (amended): the test suite's `MaxUses` caveat with
limit 10 evaluates as satisfied. -/
theorem claim_C2_witness :
    (max_uses_caveat.type = "AllowedNetwork" ∨ max_uses_caveat.type = "MaxUses") ∧
    evaluate_caveat max_uses_caveat 200 none none [] = .ok () :=
  ⟨Or.inr rfl, claim_C2_theorem max_uses_caveat 200 none none [] (Or.inr rfl)⟩

/-- Counterexample to claim C2 as stated: with no caller declaration of
external enforcement anywhere, `evaluate_caveat` succeeds on a `MaxUses`
caveat and on an `AllowedNetwork` caveat, and `verify_capability` succeeds
on a capability whose only caveat is the `MaxUses` caveat; the claim says
all three must fail. -/
theorem claim_C2_counterexample :
    evaluate_caveat max_uses_caveat 200 none none [] = .ok () ∧
    evaluate_caveat
      ⟨"AllowedNetwork", none, none, none, none, none, none, none, none,
        some ["192.168.1.0/24"]⟩ 200 none none [] = .ok () ∧
    verify_capability max_uses_cap max_uses_stores 200 = .ok () :=
  ⟨by decide, by decide, by decide⟩

/-- Claim C3: whenever a capability's own id is in the revocation set,
`verify_capability` fails with `Revoked`; whenever its id or the id of any
ancestor reachable through `parentCapability` is in the revocation set,
verification never succeeds and every `invoke_capability` on it fails.
The statement quantifies over all stores containing the revoked id and all
times, so it holds for every call made after the id has been added. -/
theorem claim_C3 (cap : Capability) (s : Stores) (now : Nat) :
    (cap.data.id ∈ s.revoked_capabilities → verify_capability cap s now = .error .revoked) ∧
    (revoked_in_chain cap s = true →
      verify_capability cap s now ≠ .ok () ∧
      ∀ an k ps fid fn, is_ok (invoke_capability cap an k s ps now fid fn).1 = false) := by
  constructor
  · intro h
    simp [verify_capability, verify_capability_fuel, h]
  · intro h
    have hver : verify_capability cap s now ≠ .ok () :=
      revoked_chain_fuel_not_ok s now _ cap h
    refine ⟨hver, ?_⟩
    intro an k ps fid fn
    cases hv : verify_capability cap s now with
    | ok u => cases u; exact absurd hv hver
    | error e => simp [invoke_capability, hv, is_ok]

/-- Witness for claim C3: with the root capability revoked, verifying the
root reports `Revoked` and invoking the delegated child fails. -/
theorem claim_C3_witness :
    verify_capability root_cap revoked_stores 200 = .error .revoked ∧
    is_ok (invoke_capability child_cap "read" charlie_sk revoked_stores [] 200
      "urn:uuid:i" "n1").1 = false :=
  ⟨(claim_C3 root_cap revoked_stores 200).1 (by decide),
   ((claim_C3 child_cap revoked_stores 200).2 (by decide)).2 "read" charlie_sk []
     "urn:uuid:i" "n1"⟩

/-- Claim C4: `delegate_capability` with no requested actions makes the
child inherit exactly the parent's actions; when actions are supplied and
some supplied action's name is not among the parent's action names, the
call never succeeds, and once the lookup, verification and delegator-key
stages pass it fails with exactly `ActionNotPermitted`. -/
theorem claim_C4 (parent : Capability) (k : PrivateKey) (ndid : Did)
    (exp : Option Nat) (cavs : List Caveat) (s : Stores) (now : Nat) (fid : String) :
    (∀ child, delegate_capability parent k ndid none exp cavs s now fid = .ok child →
      child.data.actions = parent.data.actions) ∧
    (∀ as, (∃ a ∈ as, a.name ∉ action_names parent.data.actions) →
      is_ok (delegate_capability parent k ndid (some as) exp cavs s now fid) = false) ∧
    (∀ as pk0, (∃ a ∈ as, a.name ∉ action_names parent.data.actions) →
      assoc s.capability_store parent.data.id ≠ none →
      verify_capability parent s now = .ok () →
      assoc s.did_key_store parent.data.invoker.id = some pk0 →
      public_key k = pk0 →
      delegate_capability parent k ndid (some as) exp cavs s now fid =
        .error .actionNotPermitted) := by
  have hbad_sub : ∀ (as : List Action),
      (∃ a ∈ as, a.name ∉ action_names parent.data.actions) →
      ¬ (requested_actions_ok (some as) parent = true) := by
    intro as hbad hsub
    obtain ⟨a, ha, hn⟩ := hbad
    simp only [requested_actions_ok, actions_subset, List.all_eq_true, decide_eq_true_eq,
      action_names] at hsub
    exact hn (hsub a.name (List.mem_map_of_mem Action.name ha))
  refine ⟨?_, ?_, ?_⟩
  · intro child h
    have := (delegate_ok_inv parent k ndid none exp cavs s now fid child h).2.2.1
    simpa [inherited_actions] using this
  · intro as hbad
    cases hok : is_ok (delegate_capability parent k ndid (some as) exp cavs s now fid) with
    | false => rfl
    | true =>
      obtain ⟨child, hch⟩ := (is_ok_iff_exists _).mp hok
      exact absurd (delegate_ok_inv parent k ndid (some as) exp cavs s now fid child hch).1
        (hbad_sub as hbad)
  · intro as pk0 hbad h1 h2 h3 h4
    cases hc : assoc s.capability_store parent.data.id with
    | none => exact absurd hc h1
    | some c0 =>
      have h5 := hbad_sub as hbad
      simp [delegate_capability, hc, h2, h3, h4, h5]

/-- Witness for claim C4: delegating the root capability with the action
`delete`, which the parent does not grant, fails with `ActionNotPermitted`. -/
theorem claim_C4_witness :
    delegate_capability root_cap bob_sk "did:example:charlie"
      (some [⟨"delete", []⟩]) none [] chain_stores 200 "urn:uuid:new" =
      .error .actionNotPermitted :=
  (claim_C4 root_cap bob_sk "did:example:charlie" none [] chain_stores 200
    "urn:uuid:new").2.2 [⟨"delete", []⟩] (public_key bob_sk)
    ⟨⟨"delete", []⟩, by decide, by decide⟩ (by decide) (by decide) (by decide) rfl

/-- Claim C5: when the parent has an expiry and the requested expiry is
strictly later, `delegate_capability` never succeeds, and once the earlier
stages pass it fails with exactly `ExpiryExceedsParent`; when no expiry is
requested the child inherits the parent's expiry.  The function returns no
capability on failure and never touches the stores. -/
theorem claim_C5 (parent : Capability) (k : PrivateKey) (ndid : Did)
    (acts : Option (List Action)) (cavs : List Caveat) (s : Stores) (now : Nat)
    (fid : String) :
    (∀ pe e, parent.data.expires = some pe → pe < e →
      is_ok (delegate_capability parent k ndid acts (some e) cavs s now fid) = false) ∧
    (∀ pe e pk0, parent.data.expires = some pe → pe < e →
      assoc s.capability_store parent.data.id ≠ none →
      verify_capability parent s now = .ok () →
      assoc s.did_key_store parent.data.invoker.id = some pk0 →
      public_key k = pk0 →
      requested_actions_ok acts parent = true →
      delegate_capability parent k ndid acts (some e) cavs s now fid =
        .error .expiryExceedsParent) ∧
    (∀ child, delegate_capability parent k ndid acts none cavs s now fid = .ok child →
      child.data.expires = parent.data.expires) := by
  have hexp_bad : ∀ pe e, parent.data.expires = some pe → pe < e →
      ¬ (requested_expires_ok (some e) parent = true) := by
    intro pe e hpe hlt hok
    simp only [requested_expires_ok, hpe, decide_eq_true_eq] at hok
    omega
  refine ⟨?_, ?_, ?_⟩
  · intro pe e hpe hlt
    cases hok : is_ok (delegate_capability parent k ndid acts (some e) cavs s now fid) with
    | false => rfl
    | true =>
      obtain ⟨child, hch⟩ := (is_ok_iff_exists _).mp hok
      exact absurd (delegate_ok_inv parent k ndid acts (some e) cavs s now fid child hch).2.1
        (hexp_bad pe e hpe hlt)
  · intro pe e pk0 hpe hlt h1 h2 h3 h4 h5
    cases hc : assoc s.capability_store parent.data.id with
    | none => exact absurd hc h1
    | some c0 =>
      have h6 := hexp_bad pe e hpe hlt
      simp [delegate_capability, hc, h2, h3, h4, h5, h6]
  · intro child h
    have := (delegate_ok_inv parent k ndid acts none cavs s now fid child h).2.2.2
    simpa [inherited_expires] using this

/-- Witness for claim C5: requesting an expiry later than the parent's
fails with `ExpiryExceedsParent` and produces no capability. -/
theorem claim_C5_witness :
    root_cap.data.expires = some 10000 ∧
    delegate_capability root_cap bob_sk "did:example:charlie" none (some 20000) []
      chain_stores 200 "urn:uuid:new" = .error .expiryExceedsParent :=
  ⟨rfl,
   (claim_C5 root_cap bob_sk "did:example:charlie" none [] chain_stores 200
     "urn:uuid:new").2.1 10000 20000 (public_key bob_sk) rfl (by decide) (by decide)
     (by decide) (by decide) rfl (by decide)⟩

/-- Claim C6: `verify_invocation` fails whenever the invocation's nonce is
already in the used-nonce store, with exactly `ReplayedNonce` once the
capability, action, caveat and freshness stages pass; a successful call
records the nonce with the invocation's timestamp; and for two successive
successful calls against the same stores the two nonces differ. -/
theorem claim_C6 (inv1 inv2 : Invocation) (s : Stores) (now1 now2 : Nat) :
    (inv1.data.nonce ∈ s.used_invocation_nonces →
      (verify_invocation inv1 s now1).1 ≠ .ok ()) ∧
    (∀ cap, assoc s.capability_store inv1.data.capability = some cap →
      verify_capability cap s now1 = .ok () →
      inv1.data.action ∈ action_names cap.data.actions →
      evaluate_caveats (effective_caveats cap s) now1 (some inv1.data.action)
        (some inv1.data.parameters) s.revoked_capabilities = .ok () →
      within_ttl inv1.data.created now1 = true →
      inv1.data.nonce ∈ s.used_invocation_nonces →
      verify_invocation inv1 s now1 = (.error .replayedNonce, s)) ∧
    ((verify_invocation inv1 s now1).1 = .ok () →
      inv1.data.nonce ∈ (verify_invocation inv1 s now1).2.used_invocation_nonces ∧
      assoc (verify_invocation inv1 s now1).2.nonce_timestamps inv1.data.nonce =
        some inv1.data.created) ∧
    ((verify_invocation inv1 s now1).1 = .ok () →
      (verify_invocation inv2 (verify_invocation inv1 s now1).2 now2).1 = .ok () →
      inv1.data.nonce ≠ inv2.data.nonce) := by
  refine ⟨?_, ?_, ?_, ?_⟩
  · intro hmem hok
    exact (verify_invocation_ok_inv inv1 s now1 hok).1 hmem
  · intro cap hcap hv hact hcavs hfresh hnon
    simp [verify_invocation, hcap, hv, hact, hcavs, hfresh, hnon]
  · intro hok
    obtain ⟨_, hfresh, hst⟩ := verify_invocation_ok_inv inv1 s now1 hok
    rw [hst]
    exact nonce_recorded s inv1.data.nonce inv1.data.created now1
      (within_ttl_cutoff _ _ hfresh)
  · intro h1 h2 heq
    obtain ⟨_, hfresh, hst⟩ := verify_invocation_ok_inv inv1 s now1 h1
    have hmem : inv1.data.nonce ∈
        (verify_invocation inv1 s now1).2.used_invocation_nonces := by
      rw [hst]
      exact (nonce_recorded s inv1.data.nonce inv1.data.created now1
        (within_ttl_cutoff _ _ hfresh)).1
    have hnot := (verify_invocation_ok_inv inv2 _ now2 h2).1
    rw [← heq] at hnot
    exact hnot hmem

/-- Witness for claim C6: re-submitting an invocation whose nonce is
already recorded fails with `ReplayedNonce` and leaves the stores
untouched. -/
theorem claim_C6_witness :
    inv1.data.nonce ∈ replayed_stores.used_invocation_nonces ∧
    verify_invocation inv1 replayed_stores 200 = (.error .replayedNonce, replayed_stores) :=
  ⟨by decide,
   (claim_C6 inv1 inv2 replayed_stores 200 200).2.1 root_cap (by decide) (by decide)
     (by decide) (by decide) (by decide) (by decide)⟩

/-- Claim C7: for a capability that verifies and an action name that is
not the name of any of the capability's actions, `invoke_capability` fails
with `ActionNotAllowed` and returns no invocation. -/
theorem claim_C7 (cap : Capability) (an : String) (k : PrivateKey) (s : Stores)
    (ps : List (String × String)) (now : Nat) (fid fn : String)
    (hv : verify_capability cap s now = .ok ())
    (hna : an ∉ action_names cap.data.actions) :
    (invoke_capability cap an k s ps now fid fn).1 = .error .actionNotAllowed := by
  simp [invoke_capability, hv, hna]

/-- Witness for claim C7: `write` is granted by the root capability but was
dropped in the delegation to Charlie, so invoking `write` through the
child fails with `ActionNotAllowed`. -/
theorem claim_C7_witness :
    "write" ∈ action_names root_cap.data.actions ∧
    "write" ∉ action_names child_cap.data.actions ∧
    (invoke_capability child_cap "write" charlie_sk chain_stores [] 200
      "urn:uuid:i" "n1").1 = .error .actionNotAllowed :=
  ⟨by decide, by decide,
   claim_C7 child_cap "write" charlie_sk chain_stores [] 200 "urn:uuid:i" "n1"
     (by decide) (by decide)⟩

/-- Claim C8: a `RequireParameter` caveat with fields `parameter` and
`value` is satisfied exactly when the supplied invocation parameters are
present and map the key to an equal value; it fails when the parameter
mapping is absent, lacks the key, or maps it to a different value. -/
theorem claim_C8 (p v : String) (now : Nat) (act : Option String)
    (ps : Option (List (String × String))) (rev : List String) :
    evaluate_caveat
        ⟨"RequireParameter", none, none, none, some p, some v, none, none, none, none⟩
        now act ps rev = .ok ()
      ↔ ∃ qs, ps = some qs ∧ assoc qs p = some v := by
  cases ps with
  | none => simp [evaluate_caveat]
  | some qs =>
    cases hq : assoc qs p with
    | none => simp [evaluate_caveat, hq]
    | some w =>
      by_cases hw : w = v
      · subst hw; simp [evaluate_caveat, hq]
      · simp [evaluate_caveat, hq, hw]

/-- Witness for claim C8: requiring `format = json` is satisfied by the
parameters of the test suite's export invocation. -/
theorem claim_C8_witness :
    evaluate_caveat
        ⟨"RequireParameter", none, none, none, some "format", some "json", none, none,
          none, none⟩ 200 (some "export") (some [("format", "json")]) [] = .ok () :=
  (claim_C8 "format" "json" 200 (some "export") (some [("format", "json")]) []).mpr
    ⟨[("format", "json")], rfl, by decide⟩

/-- Claim C9: an `AllowedAction` caveat with action list `A` is satisfied
exactly when the action context is absent or the evaluated action is a
member of `A`. -/
theorem claim_C9 (A : List String) (now : Nat) (act : Option String)
    (ps : Option (List (String × String))) (rev : List String) :
    evaluate_caveat
        ⟨"AllowedAction", none, none, some A, none, none, none, none, none, none⟩
        now act ps rev = .ok ()
      ↔ act = none ∨ ∃ a, act = some a ∧ a ∈ A := by
  cases act with
  | none => simp [evaluate_caveat]
  | some a =>
    by_cases ha : a ∈ A
    · simp [evaluate_caveat, ha]
    · simp [evaluate_caveat, ha]

/-- Witness for claim C9: the action `read` satisfies an `AllowedAction`
caveat listing `read` and `update`. -/
theorem claim_C9_witness :
    evaluate_caveat
        ⟨"AllowedAction", none, none, some ["read", "update"], none, none, none, none,
          none, none⟩ 200 (some "read") none [] = .ok () :=
  (claim_C9 ["read", "update"] 200 (some "read") none []).mpr
    (Or.inr ⟨"read", rfl, by decide⟩)

/-- Claim C10: `invoke_capability` never changes the DID key store, the
capability store or the revocation set; a failed call leaves the stores
exactly as given; and a successful call extends the used-nonce store with
the invocation's fresh nonce and the timestamp map with its timestamp. -/
theorem claim_C10 (cap : Capability) (an : String) (k : PrivateKey) (s : Stores)
    (ps : List (String × String)) (now : Nat) (fid fn : String) :
    ((invoke_capability cap an k s ps now fid fn).2.did_key_store = s.did_key_store ∧
     (invoke_capability cap an k s ps now fid fn).2.capability_store = s.capability_store ∧
     (invoke_capability cap an k s ps now fid fn).2.revoked_capabilities =
       s.revoked_capabilities) ∧
    (∀ e, (invoke_capability cap an k s ps now fid fn).1 = .error e →
      (invoke_capability cap an k s ps now fid fn).2 = s) ∧
    (∀ inv, (invoke_capability cap an k s ps now fid fn).1 = .ok inv →
      (invoke_capability cap an k s ps now fid fn).2.used_invocation_nonces =
        inv.data.nonce :: s.used_invocation_nonces ∧
      (invoke_capability cap an k s ps now fid fn).2.nonce_timestamps =
        (inv.data.nonce, now) :: s.nonce_timestamps) := by
  cases hv : verify_capability cap s now with
  | error e => simp [invoke_capability, hv]
  | ok u =>
    cases u
    by_cases hna : an ∈ action_names cap.data.actions
    case neg => simp [invoke_capability, hv, hna]
    case pos =>
      cases hc : evaluate_caveats (effective_caveats cap s) now (some an) (some ps)
          s.revoked_capabilities with
      | error e => simp [invoke_capability, hv, hna, hc]
      | ok u2 =>
        cases u2
        cases hd : assoc s.did_key_store cap.data.invoker.id with
        | none => simp [invoke_capability, hv, hna, hc, hd]
        | some pk =>
          by_cases hk : public_key k = pk
          case neg => simp [invoke_capability, hv, hna, hc, hd, hk]
          case pos =>
            have hres : invoke_capability cap an k s ps now fid fn =
                (.ok ⟨⟨fid, an, cap.data.id, ps, now, fn⟩,
                      ⟨cap.data.invoker.id, "capabilityInvocation",
                       sign_invocation k ⟨fid, an, cap.data.id, ps, now, fn⟩⟩⟩,
                 ⟨s.did_key_store, s.capability_store, s.revoked_capabilities,
                  fn :: s.used_invocation_nonces, (fn, now) :: s.nonce_timestamps⟩) := by
              simp [invoke_capability, hv, hna, hc, hd, hk]
            refine ⟨?_, ?_, ?_⟩
            · rw [hres]
              exact ⟨rfl, rfl, rfl⟩
            · intro e he
              rw [hres] at he
              exact absurd he (by simp)
            · intro inv hinv
              have hinv2 : (Except.ok ⟨⟨fid, an, cap.data.id, ps, now, fn⟩,
                  ⟨cap.data.invoker.id, "capabilityInvocation",
                   sign_invocation k ⟨fid, an, cap.data.id, ps, now, fn⟩⟩⟩ :
                    Except ZcapError Invocation) =
                  Except.ok inv := by
                rw [hres] at hinv
                exact hinv
              obtain rfl := Except.ok.inj hinv2
              rw [hres]
              exact ⟨rfl, rfl⟩

/-- Witness for claim C10: a successful invocation of the child capability
leaves the capability store unchanged and records exactly its fresh nonce. -/
theorem claim_C10_witness :
    (invoke_capability child_cap "read" charlie_sk chain_stores [] 200
        "urn:uuid:i" "n1").2.capability_store = chain_stores.capability_store ∧
    (invoke_capability child_cap "read" charlie_sk chain_stores [] 200
        "urn:uuid:i" "n1").2.used_invocation_nonces =
      "n1" :: chain_stores.used_invocation_nonces :=
  ⟨(claim_C10 child_cap "read" charlie_sk chain_stores [] 200 "urn:uuid:i" "n1").1.2.1,
   ((claim_C10 child_cap "read" charlie_sk chain_stores [] 200 "urn:uuid:i" "n1").2.2
      ⟨⟨"urn:uuid:i", "read", "urn:uuid:child", [], 200, "n1"⟩,
       ⟨"did:example:charlie", "capabilityInvocation",
        sign_invocation charlie_sk ⟨"urn:uuid:i", "read", "urn:uuid:child", [], 200, "n1"⟩⟩⟩
      (by decide)).1⟩

end zcap
